import Mathlib

/-
Verification of the PocketFlow orchestration core (pockerflow-lixx/__init__.py).

The development shallowly embeds the engine: string-keyed Python dicts become
association lists with replace-on-insert semantics; exceptions become Except;
the implicit None returned by a function body that falls through becomes
Option; the mutable shared state is threaded explicitly; the bounded while
loop of the flow interpreter is run on explicit fuel.  Effectful loops
(the retry loop, the heap-based orchestrator used for the visit-isolation
claims) additionally return a trace of the calls they made, so that claims
about "how many times execute ran" and "what user code observed" are
statements about the returned trace.
-/

namespace PF

/-- Dict models a Python dict with string keys: an association list whose
insert replaces the value of an existing key in place and otherwise appends,
so keys stay unique when the dict is built by insertion. -/
abbrev Dict (α : Type) : Type := List (String × α)

/-- Lookup in a Dict, as Python dict.get: first (hence only) binding wins. -/
def Dict.get {α : Type} : Dict α → String → Option α
  | [], _ => none
  | (k, v) :: t, key => if k = key then some v else Dict.get t key

/-- Assignment d[k] = v on a Python dict: replace the existing binding of k,
or append a new one. -/
def Dict.insert {α : Type} : Dict α → String → α → Dict α
  | [], k, v => [(k, v)]
  | (k', v') :: t, k, v =>
    if k' = k then (k, v) :: t else (k', v') :: Dict.insert t k v

/-- Python dict-merge as in the source's unpacking of two dicts into a new
dict: start from a and assign every binding of b, so b wins on conflicts. -/
def Dict.merge {α : Type} (a b : Dict α) : Dict α :=
  List.foldl (fun d kv => Dict.insert d kv.1 kv.2) a b

/-- Well-formedness of a Dict: keys occur at most once (every actual Python
dict satisfies this). -/
def Dict.WF {α : Type} (d : Dict α) : Prop :=
  List.Nodup (List.map Prod.fst d)

/-- Outcome of one run of a retry engine ( Node._exec or the cooperative
AsyncNode._exec ): the returned value (Except for a propagated exception,
Option for the implicit None when the loop body never runs), plus an
execution trace: the value of the readable cur_retry field passed to each
invocation of exec, in call order, and how often the fallback hook ran. -/
structure RetryOutcome (ε β : Type) where
  result : Except ε (Option β)
  observed : List Nat
  fallbackCalls : Nat

/-- Node._exec retry loop, from the source:
for self.cur_retry in range(self.max_retries): try return exec; on the last
attempt return exec_fallback(prep, e), else continue.  k is the loop index
(the engine assigns it to the readable cur_retry field, so exec receives k),
rem the remaining iterations; callers keep k + rem = max_retries.  exec and
the fallback are user functions of the observable cur_retry value and the
prepare value. -/
def Node.execAttempt {α β ε : Type} (N : Nat) (ex : Nat → α → Except ε β)
    (fb : α → ε → Except ε β) (prep : α) : Nat → Nat → RetryOutcome ε β
  | _, 0 => ⟨Except.ok none, [], 0⟩
  | k, rem + 1 =>
    match ex k prep with
    | Except.ok v => ⟨Except.ok (some v), [k], 0⟩
    | Except.error e =>
      if k = N - 1 then
        ⟨Except.map some (fb prep e), [k], 1⟩
      else
        let r := Node.execAttempt N ex fb prep (k + 1) rem
        ⟨r.result, k :: r.observed, r.fallbackCalls⟩

/-- Node._exec: run the retry loop from attempt 0 with max_retries = N. -/
def Node._exec {α β ε : Type} (N : Nat) (ex : Nat → α → Except ε β)
    (fb : α → ε → Except ε β) (prep : α) : RetryOutcome ε β :=
  Node.execAttempt N ex fb prep 0 N

/-- AsyncNode._exec retry loop, from the source:
for i in range(self.max_retries): try return await exec_async; on the last
attempt return await exec_fallback_async(prep, e).  The loop variable i is
local; the readable cur_retry field keeps its prior value curRetry, which is
what exec_async observes at every attempt. -/
def AsyncNode.execAttempt {α β ε : Type} (N curRetry : Nat)
    (ex : Nat → α → Except ε β) (fb : α → ε → Except ε β) (prep : α) :
    Nat → Nat → RetryOutcome ε β
  | _, 0 => ⟨Except.ok none, [], 0⟩
  | i, rem + 1 =>
    match ex curRetry prep with
    | Except.ok v => ⟨Except.ok (some v), [curRetry], 0⟩
    | Except.error e =>
      if i = N - 1 then
        ⟨Except.map some (fb prep e), [curRetry], 1⟩
      else
        let r := AsyncNode.execAttempt N curRetry ex fb prep (i + 1) rem
        ⟨r.result, curRetry :: r.observed, r.fallbackCalls⟩

/-- AsyncNode._exec: run the cooperative retry loop from attempt 0. -/
def AsyncNode._exec {α β ε : Type} (N curRetry : Nat)
    (ex : Nat → α → Except ε β) (fb : α → ε → Except ε β) (prep : α) :
    RetryOutcome ε β :=
  AsyncNode.execAttempt N curRetry ex fb prep 0 N

/-- Node._run: prep, then the retry-wrapped _exec, then post.  prep may
mutate shared (returns the new shared state and the prep value); post gets
the shared state, the prep value and the execute result and returns the new
shared state and the action.  An exception out of _exec propagates. -/
def Node._run {α β ε σ : Type} (N : Nat) (prepF : σ → σ × α)
    (ex : Nat → α → Except ε β) (fb : α → ε → Except ε β)
    (postF : σ → α → Option β → σ × Option String) (s : σ) :
    Except ε (σ × Option String) :=
  match (Node._exec N ex fb (prepF s).2).result with
  | Except.error e => Except.error e
  | Except.ok r => Except.ok (postF (prepF s).1 (prepF s).2 r)

/-- BatchNode._exec body: the list comprehension
[super()._exec(i) for i in (items or [])] — per-item retry-wrapped exec,
left to right, aborting with the exception if an item's retry run raises. -/
def BatchNode.execItems {α β ε : Type} (N : Nat) (ex : Nat → α → Except ε β)
    (fb : α → ε → Except ε β) : List α → Except ε (List (Option β))
  | [] => Except.ok []
  | i :: rest =>
    match (Node._exec N ex fb i).result with
    | Except.error e => Except.error e
    | Except.ok r =>
      match BatchNode.execItems N ex fb rest with
      | Except.error e => Except.error e
      | Except.ok rs => Except.ok (r :: rs)

/-- BatchNode._exec: items may be absent (None); (items or []) guards the
iteration. -/
def BatchNode._exec {α β ε : Type} (N : Nat) (ex : Nat → α → Except ε β)
    (fb : α → ε → Except ε β) (items : Option (List α)) :
    Except ε (List (Option β)) :=
  BatchNode.execItems N ex fb (items.getD [])

/-- A node as the flow interpreter sees it: its full _run lifecycle as a
function of the params installed by the interpreter and the shared state
(returning the new shared state and the action from post), plus its
successor map.  Node identities ν index the graph. -/
structure GNode (ν σ V : Type) where
  run : Dict V → σ → σ × Option String
  successors : Dict ν

/-- Key used for the successor lookup: action or "default" in the source,
where both None and the empty string are falsy. -/
def Flow.actionKey : Option String → String
  | none => "default"
  | some s => if s = "" then ("default") else s

/-- Flow.get_next_node: look up successors.get(action or "default"); when
the lookup fails and the successor map is non-empty, emit the
"Flow ends" warning (second component). -/
def Flow.get_next_node {ν : Type} (successors : Dict ν)
    (action : Option String) : Option ν × Bool :=
  match Dict.get successors (Flow.actionKey action) with
  | some n => (some n, false)
  | none => (none, !successors.isEmpty)

/-- Flow._orch while loop on explicit fuel: visit the current node with the
traversal's node_params, follow get_next_node, and return the last action
when the current node is None.  none as the overall result means the fuel
ran out (a traversal the source would still be running). -/
def Flow.orchLoop {ν σ V : Type} (g : ν → GNode ν σ V) (nodeParams : Dict V) :
    Nat → Option ν → σ → Option String → Option (σ × Option String)
  | _, none, s, la => some (s, la)
  | 0, some _, _, _ => none
  | fuel + 1, some n, s, _ =>
    let step := (g n).run nodeParams s
    Flow.orchLoop g nodeParams fuel
      (Flow.get_next_node (g n).successors step.2).1 step.1 step.2

/-- Flow._orch: node_params = params or a copy of the flow's own params
(None and the empty dict are falsy), then the traversal loop from the start
node with last_action = None. -/
def Flow._orch {ν σ V : Type} (g : ν → GNode ν σ V) (flowParams : Dict V)
    (params : Option (Dict V)) (start : Option ν) (fuel : Nat) (s : σ) :
    Option (σ × Option String) :=
  let node_params := match params with
    | none => flowParams
    | some p => if p.isEmpty then flowParams else p
  Flow.orchLoop g node_params fuel start s none

/-- Flow._run: the flow's own prep, then _orch on the shared state (with no
params argument), then the flow's post with (shared, prep result, orch
result). -/
def Flow._run {ν σ V π : Type} (g : ν → GNode ν σ V) (flowParams : Dict V)
    (start : Option ν) (prepF : σ → σ × π)
    (postF : σ → π → Option String → σ × Option String)
    (fuel : Nat) (s : σ) : Option (σ × Option String) :=
  match Flow._orch g flowParams none start fuel (prepF s).1 with
  | none => none
  | some r => some (postF r.1 (prepF s).2 r.2)

/-- Flow.post default body: return exec_res unchanged. -/
def Flow.defaultPost {σ π : Type} : σ → π → Option String → σ × Option String :=
  fun sh _ e => (sh, e)

/-- BatchFlow._run inner loop: one full _orch per batch-params dict, in list
order, with params = the merge of the flow's params and the batch params
(batch params win), all on the same threaded shared state. -/
def BatchFlow.runBatches {ν σ V : Type} (g : ν → GNode ν σ V)
    (flowParams : Dict V) (start : Option ν) (fuel : Nat) :
    List (Dict V) → σ → Option σ
  | [], s => some s
  | bp :: rest, s =>
    match Flow._orch g flowParams (some (Dict.merge flowParams bp)) start
        fuel s with
    | none => none
    | some r => BatchFlow.runBatches g flowParams start fuel rest r.1

/-- BatchFlow._run: prep yields the ([]-defaulted) list of batch params, the
traversal runs once per entry, and post receives the list and None as the
execute result. -/
def BatchFlow._run {ν σ V : Type} (g : ν → GNode ν σ V)
    (flowParams : Dict V) (start : Option ν)
    (prepF : σ → σ × Option (List (Dict V)))
    (postF : σ → List (Dict V) → Option String → σ × Option String)
    (fuel : Nat) (s : σ) : Option (σ × Option String) :=
  let l := (prepF s).2.getD []
  match BatchFlow.runBatches g flowParams start fuel l (prepF s).1 with
  | none => none
  | some s2 => some (postF s2 l none)

/-- A Python node object as far as the visit-isolation claims are concerned:
the params attribute is a reference (an address) into a heap of dicts, and
the successor map is carried by value (the interpreter never rewires it).
copy.copy of such an object copies the record, sharing the reference. -/
structure PyNodeObj (ν : Type) where
  paramsRef : Nat
  successors : Dict ν
deriving DecidableEq

/-- The address-to-dict heap backing Python dict objects. -/
abbrev Heap : Type := Nat → Dict Nat

/-- Destructive assignment heap[a] = d. -/
def Heap.update (h : Heap) (a : Nat) (d : Dict Nat) : Heap :=
  fun a' => if a' = a then d else h a'

/-- One entry of the visit trace of the heap-level orchestrator: which graph
node was visited, the paramsRef field of the ephemeral copy handed to the
user phases, and the contents of the dict behind that reference at visit
entry — exactly what user code observes as self.params. -/
structure HeapVisit (ν : Type) where
  nodeId : ν
  seenRef : Nat
  seenParams : Dict Nat
deriving DecidableEq

/-- Result of the heap-level orchestrator: the visit trace, the final heap
and the last action. -/
structure HeapOrchResult (ν : Type) where
  visits : List (HeapVisit ν)
  finalHeap : Heap
  lastAction : Option String

/-- Flow._orch at the level of Python object identity.  Each iteration
builds the ephemeral visit object copy.copy(node) and then
set_params(node_params): the copy is the original graph record with its
params field rebound to the traversal's single parameter-dict address pa.
The user-supplied visit body receives the copy and the heap and may rebind
fields of its copy and/or mutate the heap; it returns the (possibly
changed) copy, the new heap and the action its post returned. -/
def Flow.orchHeap {ν : Type} (g : ν → PyNodeObj ν)
    (visit : ν → PyNodeObj ν → Heap → PyNodeObj ν × Heap × Option String)
    (pa : Nat) :
    Nat → Option ν → Heap → Option String → HeapOrchResult ν
  | _, none, heap, la => ⟨[], heap, la⟩
  | 0, some _, heap, la => ⟨[], heap, la⟩
  | fuel + 1, some n, heap, _ =>
    let visitCopy : PyNodeObj ν := { g n with paramsRef := pa }
    let step := visit n visitCopy heap
    let rest := Flow.orchHeap g visit pa fuel
      (Flow.get_next_node step.1.successors step.2.2).1 step.2.1 step.2.2
    ⟨⟨n, visitCopy.paramsRef, heap visitCopy.paramsRef⟩ :: rest.visits,
      rest.finalHeap, rest.lastAction⟩

/-- The classes of the module, for resolving which _run body a synchronous
run dispatches to. -/
inductive Cls
  | object | baseNode | node | batchNode | flow | batchFlow
  | asyncNode | asyncBatchNode | asyncParallelBatchNode
  | asyncFlow | asyncBatchFlow | asyncParallelBatchFlow
deriving DecidableEq

/-- Direct base classes, exactly as declared in the source. -/
def Cls.bases : Cls → List Cls
  | .object => []
  | .baseNode => [.object]
  | .node => [.baseNode]
  | .batchNode => [.node]
  | .flow => [.baseNode]
  | .batchFlow => [.flow]
  | .asyncNode => [.node]
  | .asyncBatchNode => [.asyncNode, .batchNode]
  | .asyncParallelBatchNode => [.asyncNode, .batchNode]
  | .asyncFlow => [.flow, .asyncNode]
  | .asyncBatchFlow => [.asyncFlow, .batchFlow]
  | .asyncParallelBatchFlow => [.asyncFlow, .batchFlow]

/-- A class is a good merge head when it appears in no tail of the pending
linearizations (the C3-linearization side condition). -/
def Cls.goodHead (c : Cls) (ls : List (List Cls)) : Bool :=
  ls.all fun l => !(List.drop 1 l).contains c

/-- Scan the pending linearizations for the first good head. -/
def Cls.pickHead (all : List (List Cls)) : List (List Cls) → Option Cls
  | [] => none
  | l :: rest =>
    match l with
    | [] => Cls.pickHead all rest
    | c :: _ => if Cls.goodHead c all then some c else Cls.pickHead all rest

/-- Remove a chosen class from every pending linearization. -/
def Cls.removeCls (c : Cls) (ls : List (List Cls)) : List (List Cls) :=
  ls.map fun l => l.filter (fun d => !(d = c : Bool))

/-- C3-linearization merge, on fuel; none = inconsistent hierarchy or fuel
exhausted (neither happens for this module's classes). -/
def Cls.mergeLin : Nat → List (List Cls) → Option (List Cls)
  | 0, _ => none
  | fuel + 1, ls =>
    let ls' := ls.filter fun l => !l.isEmpty
    if ls'.isEmpty then some []
    else
      match Cls.pickHead ls' ls' with
      | none => none
      | some c => Option.map (fun r => c :: r)
          (Cls.mergeLin fuel (Cls.removeCls c ls'))

/-- Python method resolution order: L(C) = C :: merge(L(B1),...,L(Bn),
[B1,...,Bn]). -/
def Cls.mroFuel : Nat → Cls → Option (List Cls)
  | 0, _ => none
  | fuel + 1, c => do
    let parentLins ← (Cls.bases c).mapM (Cls.mroFuel fuel)
    let merged ← Cls.mergeLin 32 (parentLins ++ [Cls.bases c])
    pure (c :: merged)

/-- The MRO of each class of the module (the hierarchy is 5 levels deep, so
fuel 16 suffices). -/
def Cls.mro (c : Cls) : List Cls :=
  (Cls.mroFuel 16 c).getD []

/-- The classes whose bodies define a synchronous _run: BaseNode, Flow,
BatchFlow, and AsyncNode (whose _run raises). -/
def Cls.definesSyncRun : Cls → Bool
  | .baseNode | .flow | .batchFlow | .asyncNode => true
  | _ => false

/-- Which _run body a synchronous run on an instance of c dispatches to:
the first class along the MRO that defines _run. -/
def Cls.resolveSyncRun (c : Cls) : Option Cls :=
  (Cls.mro c).find? Cls.definesSyncRun

/-- Behavior of the synchronous run on an instance of c: AsyncNode._run
raises RuntimeError("Use run_async for AsyncNode."); any other resolved
body executes its synchronous lifecycle. -/
def Cls.dispatchSyncRun (c : Cls) : Except String Cls :=
  match Cls.resolveSyncRun c with
  | some Cls.asyncNode => Except.error ("Use run_async for AsyncNode.")
  | some d => Except.ok d
  | none => Except.error ("unresolved")

/-- A Python value usable as an action label: a string, or something else
(whose description is irrelevant). -/
inductive PyLabel
  | str (s : String)
  | nonString (desc : String)

/-- BaseNode.next: warn when the action is already wired (third component),
assign successors[action] = node, and return node for chaining. -/
def BaseNode.next {ν : Type} (successors : Dict ν) (node : ν)
    (action : String) : Dict ν × ν × Bool :=
  (Dict.insert successors action node, node, (Dict.get successors action).isSome)

/-- The pending edge produced by the - operator: the source node (stood for
by its successor map) and the action label. -/
structure _ConditionalTransition (ν : Type) where
  src : Dict ν
  action : String

/-- BaseNode.__sub__: a string action yields the pending edge, anything
else raises TypeError("Action must be a string"). -/
def BaseNode.sub {ν : Type} (successors : Dict ν) (label : PyLabel) :
    Except String (_ConditionalTransition ν) :=
  match label with
  | PyLabel.str s => Except.ok (_ConditionalTransition.mk successors s)
  | PyLabel.nonString _ => Except.error ("Action must be a string")

/-- Completion of the pending edge (its __rshift__ with the target node):
delegate to src.next(target, action). -/
def _ConditionalTransition.rshift {ν : Type} (t : _ConditionalTransition ν)
    (target : ν) : Dict ν × ν × Bool :=
  BaseNode.next t.src target t.action

/-- Fixture: an error constructor for a node whose execute raises at every
attempt. -/
def c1ErrF : Nat → String := fun _ => ("boom")

/-- Fixture: an execute that raises at every attempt. -/
def c1Ex : Nat → Unit → Except String Nat :=
  fun k _ => Except.error (c1ErrF k)

/-- Fixture: a fallback hook that returns 42. -/
def c1Fb : Unit → String → Except String Nat := fun _ _ => Except.ok 42

/-- Fixture: an execute that raises on attempt 0 and returns ten times its
item on later attempts. -/
def c4Ex : Nat → Nat → Except String Nat :=
  fun k i => if k = 0 then Except.error ("fail") else Except.ok (i * 10)

/-- Fixture: the default fallback, re-raising the exception. -/
def c4Fb : Nat → String → Except String Nat := fun _ e => Except.error e

/-- Fixture: an execute that raises at every attempt (cooperative node). -/
def c7Ex : Nat → Unit → Except String Nat := fun _ _ => Except.error ("boom")

/-- Fixture: the default fallback, re-raising the exception. -/
def c7Fb : Unit → String → Except String Nat := fun _ e => Except.error e

/-- Fixture: a one-node graph over shared state Nat; the node increments the
shared state, returns action "done", and has no successors. -/
def c2Graph : Unit → GNode Unit Nat Nat :=
  fun _ => ⟨fun _ s => (s + 1, some ("done")), []⟩

/-- Fixture: a flow prepare that returns 7 without touching shared state. -/
def c2Prep : Nat → Nat × Nat := fun s => (s, 7)

/-- Fixture: a successor map wiring "go" to the single node. -/
def c3Succ : Dict Unit := [(("go"), ())]

/-- Fixture: a one-node graph that appends the value of params["tag"] to the
shared list and ends the traversal. -/
def c5Graph : Unit → GNode Unit (List (Option Nat)) Nat :=
  fun _ => ⟨fun p s => (s ++ [Dict.get p ("tag")], none), []⟩

/-- Fixture: flow-level params tag = 0. -/
def c5FlowParams : Dict Nat := [(("tag"), 0)]

/-- Fixture: two batch parameter maps, the first overriding tag, the second
empty. -/
def c5Batches : List (Dict Nat) := [[(("tag"), 1)], []]

/-- Fixture: a batch-flow prepare returning the batch list. -/
def c5Prep : List (Option Nat) → List (Option Nat) × Option (List (Dict Nat)) :=
  fun s => (s, some c5Batches)

/-- Fixture: a batch-flow post returning action "done". -/
def c5Post : List (Option Nat) → List (Dict Nat) → Option String →
    List (Option Nat) × Option String :=
  fun s _ _ => (s, some ("done"))

/-- Fixture: a single self-wired node ("go" loops back to itself). -/
def c6Graph : Unit → PyNodeObj Unit := fun _ => ⟨0, [(("go"), ())]⟩

/-- Fixture: a heap of empty dicts. -/
def c6Heap : Heap := fun _ => []

/-- Fixture: a visit body that, on first sight, mutates the contents of the
params dict in place (params["x"] = 1) and loops; once "x" is present, it
stops.  It never rebinds its copy's params field. -/
def c6cxRun : Unit → PyNodeObj Unit → Heap →
    PyNodeObj Unit × Heap × Option String :=
  fun _ copy h =>
    match Dict.get (h copy.paramsRef) ("x") with
    | some _ => (copy, h, none)
    | none =>
      (copy, Heap.update h copy.paramsRef
        (Dict.insert (h copy.paramsRef) ("x") 1), some ("go"))

/-- Fixture: a visit body that rebinds its copy's params field to a fresh
reference but never mutates the heap, always looping. -/
def c6wRun : Unit → PyNodeObj Unit → Heap →
    PyNodeObj Unit × Heap × Option String :=
  fun _ copy h => ({ copy with paramsRef := 99 }, h, some ("go"))

/-- Fixture: a default HeapVisit for list indexing. -/
def c6Default : HeapVisit Unit := ⟨(), 0, []⟩

/-- The synchronous retry loop passes consecutive attempt indices starting
at k to execute, and runs at most rem attempts. -/
theorem Node.execAttempt_observed_range {α β ε : Type} (N : Nat)
    (ex : Nat → α → Except ε β) (fb : α → ε → Except ε β) (prep : α) :
    ∀ (rem k : Nat), ∃ m, m ≤ rem ∧
      (Node.execAttempt N ex fb prep k rem).observed = List.range' k m := by
  intro rem
  induction rem with
  | zero => intro k; exact ⟨0, Nat.le_refl 0, rfl⟩
  | succ r ih =>
    intro k
    cases hx : ex k prep with
    | ok v =>
      refine ⟨1, by omega, ?_⟩
      simp [Node.execAttempt, hx, List.range']
    | error e =>
      by_cases hk : k = N - 1
      · subst hk
        refine ⟨1, by omega, ?_⟩
        simp [Node.execAttempt, hx, List.range']
      · obtain ⟨m, hm, hobs⟩ := ih (k + 1)
        refine ⟨m + 1, by omega, ?_⟩
        simp [Node.execAttempt, hx, hk, List.range', hobs]

/-- The synchronous retry loop invokes the fallback at most once. -/
theorem Node.execAttempt_fb_le_one {α β ε : Type} (N : Nat)
    (ex : Nat → α → Except ε β) (fb : α → ε → Except ε β) (prep : α) :
    ∀ (rem k : Nat),
      (Node.execAttempt N ex fb prep k rem).fallbackCalls ≤ 1 := by
  intro rem
  induction rem with
  | zero => intro k; exact Nat.zero_le 1
  | succ r ih =>
    intro k
    cases hx : ex k prep with
    | ok v => simp [Node.execAttempt, hx]
    | error e =>
      by_cases hk : k = N - 1
      · subst hk
        simp [Node.execAttempt, hx]
      · simpa [Node.execAttempt, hx, hk] using ih (k + 1)

/-- When the synchronous retry loop (started at attempt k with the correct
remaining count) does invoke the fallback, every attempt from k on raised
and the loop made exactly the remaining N - k attempts. -/
theorem Node.execAttempt_fb_one {α β ε : Type} (N : Nat)
    (ex : Nat → α → Except ε β) (fb : α → ε → Except ε β) (prep : α) :
    ∀ (rem k : Nat), k + rem = N →
      (Node.execAttempt N ex fb prep k rem).fallbackCalls = 1 →
      (∀ j, k ≤ j → j < N → ∃ e, ex j prep = Except.error e) ∧
      (Node.execAttempt N ex fb prep k rem).observed.length = N - k := by
  intro rem
  induction rem with
  | zero =>
    intro k hkN hfb
    exact absurd hfb (by simp [Node.execAttempt])
  | succ r ih =>
    intro k hkN hfb
    cases hx : ex k prep with
    | ok v => exact absurd hfb (by simp [Node.execAttempt, hx])
    | error e =>
      by_cases hk : k = N - 1
      · subst hk
        constructor
        · intro j hkj hjN
          have hj : j = N - 1 := by omega
          exact ⟨e, hj ▸ hx⟩
        · simp [Node.execAttempt, hx]
          omega
      · have hfb' : (Node.execAttempt N ex fb prep (k + 1) r).fallbackCalls = 1 := by
          simpa [Node.execAttempt, hx, hk] using hfb
        obtain ⟨hall, hlen⟩ := ih (k + 1) (by omega) hfb'
        constructor
        · intro j hkj hjN
          rcases Nat.eq_or_lt_of_le hkj with hj | hj
          · exact ⟨e, hj ▸ hx⟩
          · exact hall j hj hjN
        · simp [Node.execAttempt, hx, hk, hlen]
          omega

/-- When every attempt from k on raises, the synchronous retry loop makes
all remaining attempts and returns the fallback applied to the prepare
value and the last attempt's exception. -/
theorem Node.execAttempt_all_error {α β ε : Type} (N : Nat)
    (ex : Nat → α → Except ε β) (fb : α → ε → Except ε β) (prep : α)
    (errF : Nat → ε) :
    ∀ (rem k : Nat), k + rem = N → 1 ≤ rem →
      (∀ j, k ≤ j → j < N → ex j prep = Except.error (errF j)) →
      Node.execAttempt N ex fb prep k rem =
        ⟨Except.map some (fb prep (errF (N - 1))), List.range' k rem, 1⟩ := by
  intro rem
  induction rem with
  | zero => intro k _ h1; exact absurd h1 (by omega)
  | succ r ih =>
    intro k hkN _ hall
    have hx : ex k prep = Except.error (errF k) :=
      hall k (Nat.le_refl k) (by omega)
    by_cases hk : k = N - 1
    · subst hk
      have hr : r = 0 := by omega
      subst hr
      simp [Node.execAttempt, hx, List.range']
    · have hrec := ih (k + 1) (by omega) (by omega)
        (fun j hj hjN => hall j (by omega) hjN)
      simp [Node.execAttempt, hx, hk, hrec, List.range']

/-- The cooperative retry loop passes the unchanged cur_retry field value to
every invocation of execute, and runs at most rem attempts. -/
theorem AsyncNode.execAttempt_observed_replicate {α β ε : Type}
    (N curRetry : Nat) (ex : Nat → α → Except ε β)
    (fb : α → ε → Except ε β) (prep : α) :
    ∀ (rem i : Nat), ∃ m, m ≤ rem ∧
      (AsyncNode.execAttempt N curRetry ex fb prep i rem).observed =
        List.replicate m curRetry := by
  intro rem
  induction rem with
  | zero => intro i; exact ⟨0, Nat.le_refl 0, rfl⟩
  | succ r ih =>
    intro i
    cases hx : ex curRetry prep with
    | ok v =>
      refine ⟨1, by omega, ?_⟩
      simp [AsyncNode.execAttempt, hx, List.replicate]
    | error e =>
      by_cases hi : i = N - 1
      · subst hi
        refine ⟨1, by omega, ?_⟩
        simp [AsyncNode.execAttempt, hx, List.replicate]
      · obtain ⟨m, hm, hobs⟩ := ih (i + 1)
        refine ⟨m + 1, by omega, ?_⟩
        simp [AsyncNode.execAttempt, hx, hi, List.replicate, hobs]

/-- The cooperative retry loop invokes the fallback at most once. -/
theorem AsyncNode.attempt_fb_le_one {α β ε : Type} (N curRetry : Nat)
    (ex : Nat → α → Except ε β) (fb : α → ε → Except ε β) (prep : α) :
    ∀ (rem i : Nat),
      (AsyncNode.execAttempt N curRetry ex fb prep i rem).fallbackCalls ≤ 1 := by
  intro rem
  induction rem with
  | zero => intro i; exact Nat.zero_le 1
  | succ r ih =>
    intro i
    cases hx : ex curRetry prep with
    | ok v => simp [AsyncNode.execAttempt, hx]
    | error e =>
      by_cases hi : i = N - 1
      · subst hi
        simp [AsyncNode.execAttempt, hx]
      · simpa [AsyncNode.execAttempt, hx, hi] using ih (i + 1)

/-- When the cooperative retry loop invokes the fallback, the (single,
repeated) execute call raised. -/
theorem AsyncNode.attempt_fb_one {α β ε : Type} (N curRetry : Nat)
    (ex : Nat → α → Except ε β) (fb : α → ε → Except ε β) (prep : α) :
    ∀ (rem i : Nat),
      (AsyncNode.execAttempt N curRetry ex fb prep i rem).fallbackCalls = 1 →
      ∃ e, ex curRetry prep = Except.error e := by
  intro rem
  induction rem with
  | zero =>
    intro i hfb
    exact absurd hfb (by simp [AsyncNode.execAttempt])
  | succ r ih =>
    intro i hfb
    cases hx : ex curRetry prep with
    | ok v => exact absurd hfb (by simp [AsyncNode.execAttempt, hx])
    | error e => exact ⟨e, rfl⟩

/-- When the (repeated) execute call raises, the cooperative retry loop
makes all remaining attempts and returns the fallback applied to the
prepare value and the exception. -/
theorem AsyncNode.attempt_all_error {α β ε : Type} (N curRetry : Nat)
    (ex : Nat → α → Except ε β) (fb : α → ε → Except ε β) (prep : α)
    (e : ε) (hx : ex curRetry prep = Except.error e) :
    ∀ (rem i : Nat), i + rem = N → 1 ≤ rem →
      AsyncNode.execAttempt N curRetry ex fb prep i rem =
        ⟨Except.map some (fb prep e), List.replicate rem curRetry, 1⟩ := by
  intro rem
  induction rem with
  | zero => intro i _ h1; exact absurd h1 (by omega)
  | succ r ih =>
    intro i hiN _
    by_cases hi : i = N - 1
    · subst hi
      have hr : r = 0 := by omega
      subst hr
      simp [AsyncNode.execAttempt, hx, List.replicate]
    · have hrec := ih (i + 1) (by omega) (by omega)
      simp [AsyncNode.execAttempt, hx, hi, hrec, List.replicate]

/-- When execute ignores the readable attempt index, the synchronous and
cooperative retry loops agree on the result, the number of fallback calls,
and the number of execute invocations. -/
theorem execAttempt_agree {α β ε : Type} (N c : Nat) (g : α → Except ε β)
    (fb : α → ε → Except ε β) (prep : α) :
    ∀ (rem k : Nat),
      (Node.execAttempt N (fun _ a => g a) fb prep k rem).result =
        (AsyncNode.execAttempt N c (fun _ a => g a) fb prep k rem).result ∧
      (Node.execAttempt N (fun _ a => g a) fb prep k rem).fallbackCalls =
        (AsyncNode.execAttempt N c (fun _ a => g a) fb prep k rem).fallbackCalls ∧
      (Node.execAttempt N (fun _ a => g a) fb prep k rem).observed.length =
        (AsyncNode.execAttempt N c (fun _ a => g a) fb prep k rem).observed.length := by
  intro rem
  induction rem with
  | zero => intro k; exact ⟨rfl, rfl, rfl⟩
  | succ r ih =>
    intro k
    cases hg : g prep with
    | ok v => simp [Node.execAttempt, AsyncNode.execAttempt, hg]
    | error e =>
      by_cases hk : k = N - 1
      · subst hk
        simp [Node.execAttempt, AsyncNode.execAttempt, hg]
      · have h := ih (k + 1)
        simp [Node.execAttempt, AsyncNode.execAttempt, hg, hk, h.1, h.2.1,
          h.2.2]

/-- C1: for max_retries = N ≥ 1, one visit invokes execute at most N times
and the fallback at most once, the fallback runs only if all N attempts
raised, and when every attempt raises the fallback is invoked exactly once
with the prepare value and the last exception and its return value is the
visit's execute result — for the synchronous engine (whose attempts are the
indices 0..N-1) and the cooperative engine (whose repeated call observes
the unchanged cur_retry field) alike. -/
theorem c1_retry_attempt_and_fallback_bound {α β ε : Type} (N : Nat)
    (hN : 1 ≤ N) (ex : Nat → α → Except ε β) (fb : α → ε → Except ε β)
    (prep : α) (curRetry : Nat) (errF : Nat → ε) :
    (Node._exec N ex fb prep).observed.length ≤ N ∧
    (Node._exec N ex fb prep).fallbackCalls ≤ 1 ∧
    ((Node._exec N ex fb prep).fallbackCalls = 1 →
      (∀ j, j < N → ∃ e, ex j prep = Except.error e) ∧
      (Node._exec N ex fb prep).observed.length = N) ∧
    ((∀ j, j < N → ex j prep = Except.error (errF j)) →
      (Node._exec N ex fb prep).result =
        Except.map some (fb prep (errF (N - 1))) ∧
      (Node._exec N ex fb prep).fallbackCalls = 1) ∧
    (AsyncNode._exec N curRetry ex fb prep).observed.length ≤ N ∧
    (AsyncNode._exec N curRetry ex fb prep).fallbackCalls ≤ 1 ∧
    ((AsyncNode._exec N curRetry ex fb prep).fallbackCalls = 1 →
      ∃ e, ex curRetry prep = Except.error e) ∧
    (∀ e, ex curRetry prep = Except.error e →
      (AsyncNode._exec N curRetry ex fb prep).result =
        Except.map some (fb prep e) ∧
      (AsyncNode._exec N curRetry ex fb prep).fallbackCalls = 1) := by
  refine ⟨?_, ?_, ?_, ?_, ?_, ?_, ?_, ?_⟩
  · obtain ⟨m, hm, hobs⟩ := Node.execAttempt_observed_range N ex fb prep N 0
    show (Node.execAttempt N ex fb prep 0 N).observed.length ≤ N
    rw [hobs]
    simpa using hm
  · exact Node.execAttempt_fb_le_one N ex fb prep N 0
  · intro hfb
    obtain ⟨hall, hlen⟩ :=
      Node.execAttempt_fb_one N ex fb prep N 0 (by omega) hfb
    exact ⟨fun j hj => hall j (Nat.zero_le j) hj, by simpa using hlen⟩
  · intro hall
    have h := Node.execAttempt_all_error N ex fb prep errF N 0 (by omega) hN
      (fun j _ hj => hall j hj)
    constructor
    · show (Node.execAttempt N ex fb prep 0 N).result = _
      rw [h]
    · show (Node.execAttempt N ex fb prep 0 N).fallbackCalls = 1
      rw [h]
  · obtain ⟨m, hm, hobs⟩ :=
      AsyncNode.execAttempt_observed_replicate N curRetry ex fb prep N 0
    show (AsyncNode.execAttempt N curRetry ex fb prep 0 N).observed.length ≤ N
    rw [hobs]
    simpa using hm
  · exact AsyncNode.attempt_fb_le_one N curRetry ex fb prep N 0
  · intro hfb
    exact AsyncNode.attempt_fb_one N curRetry ex fb prep N 0 hfb
  · intro e he
    have h := AsyncNode.attempt_all_error N curRetry ex fb prep e he N 0
      (by omega) hN
    constructor
    · show (AsyncNode.execAttempt N curRetry ex fb prep 0 N).result = _
      rw [h]
    · show (AsyncNode.execAttempt N curRetry ex fb prep 0 N).fallbackCalls = 1
      rw [h]

/-- Witness for C1: a node with max_retries = 2 whose execute always raises
and whose fallback returns 42; the theorem yields the fallback's value as
the execute result of the synchronous engine and exactly one fallback call
in the cooperative engine. -/
theorem c1_witness :
    (Node._exec 2 c1Ex c1Fb ()).result = Except.ok (some 42) ∧
    (AsyncNode._exec 2 0 c1Ex c1Fb ()).fallbackCalls = 1 := by
  have h := c1_retry_attempt_and_fallback_bound 2 (by omega) c1Ex c1Fb () 0
    c1ErrF
  constructor
  · exact (h.2.2.2.1 (fun j _ => rfl)).1
  · exact (h.2.2.2.2.2.2.2 (c1ErrF 0) rfl).2

/-- C7 (counterexample): with max_retries = 2 and a fresh cooperative node
(cur_retry field 0), both execute attempts observe cur_retry = 0; in
particular the second attempt (attempt index 1) reads 0, not 1, so the
attempt index is not observable in the cooperative engine. -/
theorem c7_counterexample :
    (AsyncNode._exec 2 0 c7Ex c7Fb ()).observed = [0, 0] ∧
    List.getD (AsyncNode._exec 2 0 c7Ex c7Fb ()).observed 1 99 ≠ 1 :=
  ⟨rfl, by decide⟩

/-- C7 (amended): in the synchronous retry engine the readable cur_retry
value at attempt k equals k (the observation trace is 0, 1, 2, ...); the
cooperative engine instead passes the unchanged cur_retry field value to
every attempt (the trace is constant).  Apart from the readable attempt
index — and the delay and fallback being suspendable, which the embedding
does not time — the engines agree: for an execute that ignores the attempt
index, both produce the same result, the same number of execute
invocations, and the same number of fallback calls. -/
theorem c7_attempt_index_amended {α β ε : Type} (N c : Nat)
    (ex : Nat → α → Except ε β) (fb : α → ε → Except ε β) (prep : α) :
    (∃ m, m ≤ N ∧ (Node._exec N ex fb prep).observed = List.range' 0 m) ∧
    (∃ m, m ≤ N ∧
      (AsyncNode._exec N c ex fb prep).observed = List.replicate m c) ∧
    (∀ g : α → Except ε β,
      (Node._exec N (fun _ a => g a) fb prep).result =
        (AsyncNode._exec N c (fun _ a => g a) fb prep).result ∧
      (Node._exec N (fun _ a => g a) fb prep).fallbackCalls =
        (AsyncNode._exec N c (fun _ a => g a) fb prep).fallbackCalls ∧
      (Node._exec N (fun _ a => g a) fb prep).observed.length =
        (AsyncNode._exec N c (fun _ a => g a) fb prep).observed.length) := by
  refine ⟨?_, ?_, ?_⟩
  · obtain ⟨m, hm, hobs⟩ := Node.execAttempt_observed_range N ex fb prep N 0
    exact ⟨m, hm, hobs⟩
  · obtain ⟨m, hm, hobs⟩ :=
      AsyncNode.execAttempt_observed_replicate N c ex fb prep N 0
    exact ⟨m, hm, hobs⟩
  · intro g
    exact execAttempt_agree N c g fb prep N 0

/-- C2: a flow run is prep, then the traversal from the entry node (run
with the flow's own params, since _run passes no params argument), then
post(shared, prep value, last action); and with the default Flow.post the
run returns the traversal's last action unchanged, so a flow can stand
where a node stands. -/
theorem c2_flow_lifecycle {ν σ V π : Type} (g : ν → GNode ν σ V)
    (fp : Dict V) (start : Option ν) (prepF : σ → σ × π)
    (postF : σ → π → Option String → σ × Option String) (fuel : Nat)
    (s s2 : σ) (a : Option String)
    (h : Flow._orch g fp none start fuel (prepF s).1 = some (s2, a)) :
    (∀ st : σ, Flow._orch g fp none start fuel st =
      Flow.orchLoop g fp fuel start st none) ∧
    Flow._run g fp start prepF postF fuel s =
      some (postF s2 (prepF s).2 a) ∧
    Flow._run g fp start prepF Flow.defaultPost fuel s = some (s2, a) := by
  refine ⟨fun st => rfl, ?_, ?_⟩
  · simp [Flow._run, h]
  · simp [Flow._run, h, Flow.defaultPost]

/-- Witness for C2: a one-node flow whose node increments the shared Nat
and answers "done"; the flow with the default post returns exactly that
action. -/
theorem c2_witness :
    Flow._run c2Graph [] (some ()) c2Prep Flow.defaultPost 2 0 =
      some (1, some ("done")) := by
  have h := c2_flow_lifecycle c2Graph [] (some ()) c2Prep Flow.defaultPost 2
    0 1 (some ("done")) rfl
  exact h.2.2

/-- C3: a None or empty-string action is looked up as "default"; when the
looked-up label has no entry the interpreter yields no successor — ending
the traversal with the current visit's result — and warns exactly when the
successor map is non-empty. -/
theorem c3_default_label_and_termination {ν σ V : Type} (succ : Dict ν)
    (a : Option String) (s : String) (g : ν → GNode ν σ V) (p : Dict V)
    (fuel : Nat) (n : ν) (st : σ) (la : Option String) :
    Flow.actionKey none = "default" ∧
    Flow.actionKey (some ("")) = "default" ∧
    (s ≠ "" → Flow.actionKey (some s) = s) ∧
    (Dict.get succ (Flow.actionKey a) = none →
      (Flow.get_next_node succ a).1 = none ∧
      ((Flow.get_next_node succ a).2 = true ↔ succ ≠ [])) ∧
    ((Flow.get_next_node (g n).successors ((g n).run p st).2).1 = none →
      Flow.orchLoop g p (fuel + 1) (some n) st la =
        some ((g n).run p st)) := by
  refine ⟨rfl, rfl, ?_, ?_, ?_⟩
  · intro hs
    simp [Flow.actionKey, hs]
  · intro hget
    refine ⟨by simp [Flow.get_next_node, hget], ?_⟩
    simp only [Flow.get_next_node, hget]
    cases succ <;> simp
  · intro hnone
    simp [Flow.orchLoop, hnone]

/-- Witness for C3: a node wired only for "go" receives the unmapped action
"missing": no successor, warning emitted; and a successor-free node ends a
traversal with its own result. -/
theorem c3_witness :
    (Flow.get_next_node c3Succ (some ("missing"))).1 = none ∧
    (Flow.get_next_node c3Succ (some ("missing"))).2 = true ∧
    Flow.orchLoop c2Graph [] 3 (some ()) 0 none =
      some ((c2Graph ()).run [] 0) := by
  have h := c3_default_label_and_termination c3Succ (some ("missing"))
    ("missing") c2Graph [] 2 () 0 none
  have h4 := h.2.2.2.1 rfl
  exact ⟨h4.1, h4.2.mpr (by simp [c3Succ]), h.2.2.2.2 rfl⟩

/-- Assigning a key makes it retrievable. -/
theorem Dict.get_insert_self {α : Type} : ∀ (d : Dict α) (k : String)
    (v : α), Dict.get (Dict.insert d k v) k = some v := by
  intro d k v
  induction d with
  | nil => simp [Dict.insert, Dict.get]
  | cons kv t ih =>
    obtain ⟨k', v'⟩ := kv
    by_cases hk : k' = k
    · simp [Dict.insert, hk, Dict.get]
    · simp [Dict.insert, hk, Dict.get, ih]

/-- Assigning a key leaves other keys untouched. -/
theorem Dict.get_insert_ne {α : Type} : ∀ (d : Dict α) (k k' : String)
    (v : α), k' ≠ k → Dict.get (Dict.insert d k v) k' = Dict.get d k' := by
  intro d k k' v hne
  induction d with
  | nil => simp [Dict.insert, Dict.get, Ne.symm hne]
  | cons kv t ih =>
    obtain ⟨k0, v0⟩ := kv
    by_cases hk : k0 = k
    · subst hk
      simp [Dict.insert, Dict.get, Ne.symm hne]
    · simp [Dict.insert, hk, Dict.get, ih]

/-- A key outside a dict's key set has no binding. -/
theorem Dict.get_eq_none_of_not_mem {α : Type} : ∀ (d : Dict α)
    (k : String), k ∉ List.map Prod.fst d → Dict.get d k = none := by
  intro d k
  induction d with
  | nil => intro _; rfl
  | cons kv t ih =>
    intro h
    obtain ⟨k0, v0⟩ := kv
    simp only [List.map_cons, List.mem_cons, not_or] at h
    simp [Dict.get, Ne.symm h.1, ih h.2]

/-- Lookup after a Python dict merge: the second dict wins exactly on the
keys it binds. -/
theorem Dict.get_merge {α : Type} : ∀ (b a : Dict α) (k : String),
    Dict.WF b →
    Dict.get (Dict.merge a b) k =
      match Dict.get b k with
      | some v => some v
      | none => Dict.get a k := by
  intro b
  induction b with
  | nil => intro a k _; rfl
  | cons kv t ih =>
    intro a k hwf
    obtain ⟨k0, v0⟩ := kv
    simp [Dict.WF] at hwf
    obtain ⟨hk0, hwf'⟩ := hwf
    have hstep : Dict.merge a ((k0, v0) :: t) =
        Dict.merge (Dict.insert a k0 v0) t := rfl
    rw [hstep, ih (Dict.insert a k0 v0) k hwf']
    by_cases hk : k0 = k
    · subst hk
      rw [Dict.get_eq_none_of_not_mem t k0 (by simpa using hk0)]
      simp [Dict.get, Dict.get_insert_self]
    · cases hgt : Dict.get t k with
      | some v => simp [Dict.get, hk, hgt]
      | none =>
        simp [Dict.get, hk, hgt,
          Dict.get_insert_ne a k0 k v0 (fun h => hk h.symm)]

/-- A batch of items all of whose retry runs succeed evaluates to the list
of their per-item results, in order. -/
theorem BatchNode.execItems_ok {α β ε : Type} (N : Nat)
    (ex : Nat → α → Except ε β) (fb : α → ε → Except ε β)
    (o : α → Option β) :
    ∀ l : List α,
      (∀ a, a ∈ l → (Node._exec N ex fb a).result = Except.ok (o a)) →
      BatchNode.execItems N ex fb l = Except.ok (List.map o l) := by
  intro l
  induction l with
  | nil => intro _; rfl
  | cons x t ih =>
    intro h
    have hx := h x (List.mem_cons_self x t)
    have ht := ih (fun a ha => h a (List.mem_cons_of_mem x ha))
    simp [BatchNode.execItems, hx, ht]

/-- C4: a batch node maps the retry-wrapped execute over the prepared
items in order — position i of the output is the retry (or fallback)
result of input item i, each item with its own fresh N-attempt budget —
and an absent or empty prepared sequence yields the empty result without
consulting execute or the fallback at all. -/
theorem c4_batch_order_and_length {α β ε : Type} (N : Nat)
    (ex : Nat → α → Except ε β) (fb : α → ε → Except ε β) (l : List α)
    (o : α → Option β) :
    (∀ (ex' : Nat → α → Except ε β) (fb' : α → ε → Except ε β),
      BatchNode._exec N ex' fb' none = Except.ok [] ∧
      BatchNode._exec N ex' fb' (some []) = Except.ok []) ∧
    ((∀ a, a ∈ l → (Node._exec N ex fb a).result = Except.ok (o a)) →
      BatchNode._exec N ex fb (some l) = Except.ok (List.map o l) ∧
      (List.map o l).length = l.length) := by
  refine ⟨fun ex' fb' => ⟨rfl, rfl⟩, fun h => ⟨?_, by simp⟩⟩
  show BatchNode.execItems N ex fb l = Except.ok (List.map o l)
  exact BatchNode.execItems_ok N ex fb o l h

/-- Witness for C4: items 3 and 4, an execute failing on attempt 0 and
succeeding with ten times the item on attempt 1, the re-raising fallback:
the batch result is the ordered per-item list. -/
theorem c4_witness :
    BatchNode._exec 2 c4Ex c4Fb (some [3, 4]) =
      Except.ok [some 30, some 40] := by
  have h := c4_batch_order_and_length 2 c4Ex c4Fb [3, 4]
    (fun a => some (a * 10))
  have h2 := h.2 (by
    intro a ha
    simp at ha
    rcases ha with rfl | rfl
    · rfl
    · rfl)
  exact h2.1

/-- C5: a batch flow runs the prepared parameter maps through one full
traversal each, in list order, on the same threaded shared state; each
traversal's node params are merge(flow params, batch params) with the
batch params winning exactly on the keys they bind; and the flow's post
receives the prepared list together with a None execute result. -/
theorem c5_batch_flow_merge_and_sequencing {ν σ V : Type}
    (g : ν → GNode ν σ V) (fp : Dict V) (start : Option ν)
    (prepF : σ → σ × Option (List (Dict V)))
    (postF : σ → List (Dict V) → Option String → σ × Option String)
    (fuel : Nat) (s : σ) (l : List (Dict V)) (s2 : σ)
    (hp : (prepF s).2 = some l)
    (hrun : BatchFlow.runBatches g fp start fuel l (prepF s).1 = some s2) :
    BatchFlow._run g fp start prepF postF fuel s =
      some (postF s2 l none) ∧
    (∀ (bp : Dict V) (rest : List (Dict V)) (st : σ),
      BatchFlow.runBatches g fp start fuel (bp :: rest) st =
        Option.bind
          (Flow._orch g fp (some (Dict.merge fp bp)) start fuel st)
          (fun r => BatchFlow.runBatches g fp start fuel rest r.1)) ∧
    (∀ bp, bp ∈ l → Dict.WF bp → ∀ (k : String) (v : V),
      (Dict.get bp k = some v →
        Dict.get (Dict.merge fp bp) k = some v) ∧
      (Dict.get bp k = none →
        Dict.get (Dict.merge fp bp) k = Dict.get fp k)) := by
  refine ⟨?_, ?_, ?_⟩
  · simp [BatchFlow._run, hp, hrun]
  · intro bp rest st
    cases ho : Flow._orch g fp (some (Dict.merge fp bp)) start fuel st with
    | none => simp [BatchFlow.runBatches, ho]
    | some r => simp [BatchFlow.runBatches, ho]
  · intro bp _ hwf k v
    constructor
    · intro hbk
      rw [Dict.get_merge bp fp k hwf, hbk]
    · intro hbk
      rw [Dict.get_merge bp fp k hwf, hbk]

/-- Witness for C5: flow params tag = 0, batches [tag = 1] then empty; the
node appends params["tag"] to the shared list, so the run observes tag 1
then tag 0 and post answers "done". -/
theorem c5_witness :
    BatchFlow._run c5Graph c5FlowParams (some ()) c5Prep c5Post 2 [] =
      some ([some 1, some 0], some ("done")) := by
  have h := c5_batch_flow_merge_and_sequencing c5Graph c5FlowParams
    (some ()) c5Prep c5Post 2 [] c5Batches [some 1, some 0] rfl rfl
  exact h.1

/-- C6 (counterexample): a self-looping node whose first visit mutates the
contents of its params dict in place (params["x"] = 1).  The second visit
of the same node observes the mutated dict, not the original empty one:
in-place content mutation does leak to subsequent visits, because every
ephemeral copy's params field is assigned the same parameter-dict object. -/
theorem c6_counterexample :
    List.map HeapVisit.seenParams
        (Flow.orchHeap c6Graph c6cxRun 5 4 (some ()) c6Heap none).visits =
      [[], [(("x"), 1)]] ∧
    (([(("x"), 1)] : Dict Nat) ≠ ([] : Dict Nat)) :=
  ⟨rfl, by decide⟩

/-- C6 (amended): every visit's ephemeral copy has its params field bound
to the traversal's single parameter-dict reference, whatever field
rebinding earlier visit bodies performed on their own copies — so
rebinding params never leaks; and for visit bodies that never mutate the
heap (rebind-only behavior), every visit observes the original parameter
dict unchanged.  (The counterexample shows the remaining half of the
original claim fails: in-place mutation of the dict contents is seen by
subsequent visits.) -/
theorem c6_visit_isolation_amended {ν : Type} (g : ν → PyNodeObj ν)
    (visit : ν → PyNodeObj ν → Heap → PyNodeObj ν × Heap × Option String)
    (pa : Nat) (fuel : Nat) (cur : Option ν) (heap : Heap)
    (la : Option String) :
    (∀ v, v ∈ (Flow.orchHeap g visit pa fuel cur heap la).visits →
      v.seenRef = pa) ∧
    ((∀ (n : ν) (c : PyNodeObj ν) (h : Heap), (visit n c h).2.1 = h) →
      ∀ v, v ∈ (Flow.orchHeap g visit pa fuel cur heap la).visits →
        v.seenParams = heap pa) := by
  induction fuel generalizing cur heap la with
  | zero =>
    cases cur with
    | none => exact ⟨fun v hv => absurd hv (by simp [Flow.orchHeap]),
        fun _ v hv => absurd hv (by simp [Flow.orchHeap])⟩
    | some n => exact ⟨fun v hv => absurd hv (by simp [Flow.orchHeap]),
        fun _ v hv => absurd hv (by simp [Flow.orchHeap])⟩
  | succ f ih =>
    cases cur with
    | none => exact ⟨fun v hv => absurd hv (by simp [Flow.orchHeap]),
        fun _ v hv => absurd hv (by simp [Flow.orchHeap])⟩
    | some n =>
      constructor
      · intro v hv
        simp only [Flow.orchHeap, List.mem_cons] at hv
        rcases hv with rfl | hv
        · rfl
        · exact (ih _ _ _).1 v hv
      · intro hpres v hv
        simp only [Flow.orchHeap, List.mem_cons] at hv
        rcases hv with rfl | hv
        · rfl
        · have hh := (ih
            (Flow.get_next_node
              (visit n { g n with paramsRef := pa } heap).1.successors
              (visit n { g n with paramsRef := pa } heap).2.2).1
            (visit n { g n with paramsRef := pa } heap).2.1
            (visit n { g n with paramsRef := pa } heap).2.2).2 hpres v hv
          rwa [hpres n { g n with paramsRef := pa } heap] at hh

/-- Witness for C6: a visit body that only rebinds its copy's params field
(to reference 99) and never touches the heap; the second visit still sees
the traversal's params reference 5 and the original dict contents. -/
theorem c6_witness :
    ((Flow.orchHeap c6Graph c6wRun 5 3 (some ()) c6Heap none).visits.getD 1
      c6Default).seenRef = 5 ∧
    ((Flow.orchHeap c6Graph c6wRun 5 3 (some ()) c6Heap none).visits.getD 1
      c6Default).seenParams = c6Heap 5 := by
  have h := c6_visit_isolation_amended c6Graph c6wRun 5 3 (some ()) c6Heap
    none
  constructor
  · exact h.1 _ (by decide)
  · exact h.2 (fun _ _ _ => rfl) _ (by decide)

/-- C9: for every pair of nodes and every string label, the two-step
shorthand (node - label obtaining a pending edge, then pending edge >> to)
produces exactly the successor-map state, returned node, and overwrite
warning of the direct from.next(to, label), and both return the target
node; pairing a node with a non-string label raises
TypeError("Action must be a string"). -/
theorem c9_transition_shorthand {ν : Type} (succ : Dict ν) (target : ν)
    (s d : String) :
    Except.map (fun t => _ConditionalTransition.rshift t target)
        (BaseNode.sub succ (PyLabel.str s)) =
      Except.ok (BaseNode.next succ target s) ∧
    (BaseNode.next succ target s).2.1 = target ∧
    (_ConditionalTransition.rshift (_ConditionalTransition.mk succ s)
        target).2.1 = target ∧
    BaseNode.sub succ (PyLabel.nonString d) =
      Except.error ("Action must be a string") :=
  ⟨rfl, rfl, rfl, rfl⟩

/-- C10: the max_retries ≥ 1 precondition is not enforced: with
max_retries = 0 both retry engines run zero attempts, invoke neither
execute nor the fallback (empty observation trace, zero fallback calls),
and yield None as the execute result, which post then receives. -/
theorem c10_zero_retries {α β ε σ : Type} (ex : Nat → α → Except ε β)
    (fb : α → ε → Except ε β) (prep : α) (c : Nat) (prepF : σ → σ × α)
    (postF : σ → α → Option β → σ × Option String) (s : σ) :
    Node._exec 0 ex fb prep = ⟨Except.ok none, [], 0⟩ ∧
    AsyncNode._exec 0 c ex fb prep = ⟨Except.ok none, [], 0⟩ ∧
    Node._run 0 prepF ex fb postF s =
      Except.ok (postF (prepF s).1 (prepF s).2 none) :=
  ⟨rfl, rfl, rfl⟩

/-- C8 (counterexample): AsyncFlow is a cooperative variant (AsyncNode is in
its MRO), yet the synchronous run on an AsyncFlow does not raise the
"use the cooperative run" error: its MRO resolves _run to Flow._run, which
executes the synchronous flow lifecycle. -/
theorem c8_counterexample :
    (Cls.mro Cls.asyncFlow).contains Cls.asyncNode = true ∧
    Cls.dispatchSyncRun Cls.asyncFlow ≠
      Except.error ("Use run_async for AsyncNode.") :=
  ⟨rfl, fun h => Except.noConfusion h⟩

/-- C8 (amended): the synchronous run on the cooperative node classes
(AsyncNode, AsyncBatchNode, AsyncParallelBatchNode) raises
RuntimeError("Use run_async for AsyncNode."); on the cooperative flow
classes the method resolution order places Flow._run (for AsyncFlow) or
BatchFlow._run (for AsyncBatchFlow, AsyncParallelBatchFlow) before
AsyncNode._run, so the synchronous run executes the synchronous flow
lifecycle instead of raising. -/
theorem c8_sync_run_dispatch_amended :
    Cls.dispatchSyncRun Cls.asyncNode =
      Except.error ("Use run_async for AsyncNode.") ∧
    Cls.dispatchSyncRun Cls.asyncBatchNode =
      Except.error ("Use run_async for AsyncNode.") ∧
    Cls.dispatchSyncRun Cls.asyncParallelBatchNode =
      Except.error ("Use run_async for AsyncNode.") ∧
    Cls.dispatchSyncRun Cls.asyncFlow = Except.ok Cls.flow ∧
    Cls.dispatchSyncRun Cls.asyncBatchFlow = Except.ok Cls.batchFlow ∧
    Cls.dispatchSyncRun Cls.asyncParallelBatchFlow =
      Except.ok Cls.batchFlow ∧
    Cls.mro Cls.asyncFlow =
      [Cls.asyncFlow, Cls.flow, Cls.asyncNode, Cls.node, Cls.baseNode,
        Cls.object] ∧
    Cls.mro Cls.asyncBatchFlow =
      [Cls.asyncBatchFlow, Cls.asyncFlow, Cls.batchFlow, Cls.flow,
        Cls.asyncNode, Cls.node, Cls.baseNode, Cls.object] :=
  ⟨rfl, rfl, rfl, rfl, rfl, rfl, rfl, rfl⟩

end PF
